import Mathlib

/-!
Verification of the TopDog large-CSV extraction core
(`src/_archived/scripts/process_large_csv 2.py` and
`src/_archived/scripts/process_large_csv_pandas 2.py`) against its
natural-language specification.

The Python code is shallowly embedded: rows are lists of strings, Python
dicts are association lists with in-place value update, the pandas chunk
loop is an explicit list-of-chunks fold, and mid-stream I/O failure is an
`Except`-valued row stream.  Machine floats produced by Python's `float()`
are modelled as exact rationals (the strings the claims exercise are all
exactly representable); Python's `int()`/`float()` grammars are modelled
for pre-stripped ASCII inputs (sign, digits, decimal point, exponent),
omitting underscore separators and the `inf`/`nan` spellings, which no
claim touches.
-/

namespace TopDog

/-- ASCII whitespace stripped by Python's `str.strip()` (the Unicode
whitespace Python also strips is irrelevant to the claims). -/
def isPySpace (c : Char) : Bool :=
  c = ' ' || c = '\t' || c = '\n' || c = '\r' || c = '\x0b' || c = '\x0c'

/-- Python `str.strip()`: drop leading and trailing whitespace. -/
def pyStrip (s : String) : String :=
  ⟨((s.data.dropWhile isPySpace).reverse.dropWhile isPySpace).reverse⟩

/-- Digit run to a natural number (callers guarantee all chars are digits). -/
def digitsToNat (ds : List Char) : Nat :=
  ds.foldl (fun a c => a * 10 + (c.toNat - 48)) 0

/-- Consume an optional leading sign, returning the sign and the rest. -/
def parseSign : List Char → Int × List Char
  | '+' :: t => (1, t)
  | '-' :: t => (-1, t)
  | t => (1, t)

/-- Python `int(s)` on a pre-stripped string: optional sign then a
nonempty digit run; `none` models `ValueError`. -/
def pyIntParse (s : String) : Option Int :=
  let (sg, t) := parseSign s.data
  if t ≠ [] ∧ t.all Char.isDigit then some (sg * digitsToNat t) else none

/-- Split the mantissa from an optional exponent part at `e`/`E`. -/
def splitAtExp (cs : List Char) : List Char × Option (List Char) :=
  match cs.span (fun c => !(c = 'e' || c = 'E')) with
  | (m, []) => (m, none)
  | (m, _ :: rest) => (m, some rest)

/-- Signed decimal exponent digits after the `e`. -/
def parseExpDigits (cs : List Char) : Option Int :=
  let (sg, t) := parseSign cs
  if t ≠ [] ∧ t.all Char.isDigit then some (sg * digitsToNat t) else none

/-- Syntactic digest of a successfully scanned float literal:
sign, integer-part digits, fraction digits with their count, exponent. -/
structure FloatRepr where
  sign : Int
  intDigits : Nat
  fracDigits : Nat
  fracLen : Nat
  exp : Int
deriving DecidableEq, Repr

/-- Scan an unsigned decimal mantissa (`12`, `12.`, `.5`, `12.5`),
returning integer-part value, fraction value and fraction length. -/
def scanUnsignedMant (cs : List Char) : Option (Nat × Nat × Nat) :=
  let (ip, rest) := cs.span Char.isDigit
  match rest with
  | [] => if ip = [] then none else some (digitsToNat ip, 0, 0)
  | '.' :: fp =>
      if fp.all Char.isDigit ∧ (ip ≠ [] ∨ fp ≠ []) then
        some (digitsToNat ip, digitsToNat fp, fp.length)
      else none
  | _ => none

/-- Scan a float literal accepted by Python's `float()` (pre-stripped,
without underscore separators or `inf`/`nan` spellings). -/
def pyFloatScan (s : String) : Option FloatRepr :=
  let (sg, body) := parseSign s.data
  let (mant, expo) := splitAtExp body
  match scanUnsignedMant mant with
  | none => none
  | some (ip, fp, fl) =>
      match expo with
      | none => some ⟨sg, ip, fp, fl, 0⟩
      | some ecs =>
          match parseExpDigits ecs with
          | none => none
          | some e => some ⟨sg, ip, fp, fl, e⟩

/-- Multiply by a signed power of ten. -/
def ratTimesPow10 (m : Rat) (e : Int) : Rat :=
  if 0 ≤ e then m * (10 : Rat) ^ e.toNat else m / (10 : Rat) ^ (-e).toNat

/-- The exact rational value denoted by a scanned float literal. -/
def FloatRepr.toRat (r : FloatRepr) : Rat :=
  ratTimesPow10
    ((r.sign : Rat) * ((r.intDigits : Rat) + (r.fracDigits : Rat) / (10 : Rat) ^ r.fracLen))
    r.exp

/-- Python `float(s)` on a pre-stripped string, as an exact rational;
`none` models `ValueError`. -/
def pyFloatParse (s : String) : Option Rat :=
  (pyFloatScan s).map FloatRepr.toRat

/-- The tagged union of values a projected cell can coerce to. -/
inductive Value where
  | intVal (n : Int)
  | floatVal (q : Rat)
  | textVal (s : String)
deriving DecidableEq, Repr

/-- Cell coercion from `LargeCSVProcessor.extract_player_data`
(lines 116–128): `if '.' in stat_value: float(...) else int(...)` inside a
`try`, with `except ValueError` storing the stripped text. -/
def coerceStat (s : String) : Value :=
  if s.data.contains '.' then
    match pyFloatParse s with
    | some q => .floatVal q
    | none => .textVal s
  else
    match pyIntParse s with
    | some n => .intVal n
    | none => .textVal s

/-- The coercion chain as the spec words it: attempt an integer parse, on
failure attempt a float parse, on failure keep the trimmed text.  Stated
only to be compared with `coerceStat`, the chain the source implements. -/
def specCoerce (s : String) : Value :=
  match pyIntParse s with
  | some n => .intVal n
  | none =>
      match pyFloatParse s with
      | some q => .floatVal q
      | none => .textVal s

/-! ## Python dict model

A Python dict is an association list with unique keys: assigning to an
existing key updates its value in place, assigning to a fresh key appends.
Only lookup and update are exercised by the code. -/

/-- `d[k] = v` on a Python dict. -/
def dictInsert {α : Type} (k : String) (v : α) : List (String × α) → List (String × α)
  | [] => [(k, v)]
  | (k', v') :: t => if k' = k then (k', v) :: t else (k', v') :: dictInsert k v t

/-- `d.get(k)` on a Python dict. -/
def dictLookup {α : Type} (k : String) : List (String × α) → Option α
  | [] => none
  | (k', v') :: t => if k' = k then some v' else dictLookup k t

/-! ## `LargeCSVProcessor.extract_player_data`
(`src/_archived/scripts/process_large_csv 2.py`, lines 102–136)

A CSV row is a list of cell strings.  The interactive glue is out of
scope: the player column index and stat column indices arrive as explicit
selections.  Python raises `IndexError` on `self.headers[stat_idx]` when
a selected index exceeds the header count; list access is embedded with
`getD`, and theorems whose conclusion depends on header names carry the
in-bounds hypothesis under which the two coincide. -/

/-- A data row: the list of its cell strings. -/
abbrev Row := List String

/-- Operator selections for the plain extractor. -/
structure Selection where
  playerCol : Nat
  statCols : List Nat
deriving Repr

/-- `max(player_col_idx, max(stat_col_indices, default=0))`. -/
def rowMaxIdx (sel : Selection) : Nat :=
  max sel.playerCol (sel.statCols.foldl max 0)

/-- A stored record: the Python dict built per processed row, mapping
`'name'` and each stat column's header name to its value. -/
abbrev Record := List (String × Value)

/-- One stat column of the record build: `if stat_idx < len(row)` guards
the cell read, the header name keys the dict entry, the stripped cell is
coerced. -/
def recStep (headers : List String) (row : Row) (acc : Record) (statIdx : Nat) : Record :=
  if statIdx < row.length then
    dictInsert (headers.getD statIdx "") (coerceStat (pyStrip (row.getD statIdx ""))) acc
  else acc

/-- The record built for one processed row: `{'name': player_name}` then
one coerced stat per selected column whose index is inside the row. -/
def extractRecordRow (headers : List String) (sel : Selection) (row : Row) : Record :=
  sel.statCols.foldl (recStep headers row) [("name", .textVal (pyStrip (row.getD sel.playerCol "")))]

/-- The mutable state of the extraction loop: `players_data` and
`processed_rows`. -/
structure ExtractState where
  table : List (String × Record)
  processedRows : Nat
deriving Repr

/-- One iteration of the row loop: skip short rows, skip rows with an
empty stripped player name, otherwise build the record and assign
`players_data[player_name] = player_stats`. -/
def processRow (headers : List String) (sel : Selection) (st : ExtractState) (row : Row) :
    ExtractState :=
  if row.length ≤ rowMaxIdx sel then st
  else
    let playerName := pyStrip (row.getD sel.playerCol "")
    if playerName = "" then st
    else
      { table := dictInsert playerName (extractRecordRow headers sel row) st.table,
        processedRows := st.processedRows + 1 }

/-- `extract_player_data`: fold the row loop over the data rows (the
header row has already been consumed by `next(reader)`). -/
def extract_player_data (headers : List String) (sel : Selection) (rows : List Row) :
    ExtractState :=
  rows.foldl (processRow headers sel) ⟨[], 0⟩

/-- Does the row loop skip this row (short row, or empty stripped key)? -/
def rowSkipped (sel : Selection) (row : Row) : Bool :=
  row.length ≤ rowMaxIdx sel || pyStrip (row.getD sel.playerCol "") = ""

/-- Modelled from the spec: the `row_count_skipped` counter of the
`ExtractionSummary`.  No such counter exists in `src` (the scripts keep
only `processed_rows`); the spec's counter is modelled as the number of
rows the source loop skips. -/
def row_count_skipped (sel : Selection) (rows : List Row) : Nat :=
  (rows.filter (rowSkipped sel)).length

/-! ## `PandasCSVProcessor.extract_fantasy_data`
(`src/_archived/scripts/process_large_csv_pandas 2.py`, lines 139–188)

A pandas row restricted to `columns_to_read` is modelled by its player,
position and year cells (`none` is a missing value, pandas `NaN`) plus
the projected stat cells.  `pd.read_csv(..., chunksize=n)` is the row
stream grouped into windows of `n`; a mid-stream I/O failure is an
`Except.error` element of the stream, raised when the enclosing chunk is
read.  The dataframe mask operations (`dropna`, `!= ''`, `isin`, `==`)
are row-wise and order-preserving, so each chunk's cleaning is a
`filterMap` over its rows.

This first layer works at the raw-string level: cells are the file's
characters, before dtype inference.  It is the reference for error
propagation and for the cleaning pipeline (key stage and filters, which
the source applies to the raw position/year cells and to the
`astype(str)`-normalized player cell).  Per-chunk dtype inference —
which makes the typed record values depend on the windowing — is the
separate refinement `extractTyped` below. -/

/-- A pandas row restricted to the columns the extractor reads. -/
structure PRow where
  playerCell : Option String
  posCell : Option String
  yearCell : Option String
  statCells : List (String × Option String)
deriving DecidableEq, Repr

/-- The `filters` argument: accepted position values and accepted year,
`none` when the filter (or its bound column) is absent. -/
structure Filters where
  positions : Option (List String)
  year : Option String
deriving DecidableEq, Repr

/-- Entity-key extraction of the chunk cleaning (lines 158–160):
`dropna(subset=[player_col])`, `astype(str).str.strip()`, drop `''`. -/
def keyStage (r : PRow) : Option String :=
  match r.playerCell with
  | none => none
  | some raw =>
      let n := pyStrip raw
      if n = "" then none else some n

/-- Filter evaluation (lines 163–167): `isin` on the raw position cell
(a missing cell is never in the accepted set) and `==` on the raw year
cell.  The two predicates are applied in sequence in the source; their
conjunction is the row's fate. -/
def passesFilters (f : Filters) (r : PRow) : Bool :=
  (match f.positions with
   | none => true
   | some ps =>
       match r.posCell with
       | none => false
       | some v => ps.contains v) &&
  (match f.year with
   | none => true
   | some y =>
       match r.yearCell with
       | none => false
       | some v => v = y)

/-- One row of the chunk cleaning: key extraction, then filters, then
`to_dict('records')` keeps the row with its stripped player name. -/
def cleanRow (f : Filters) (r : PRow) : Option PRow :=
  match keyStage r with
  | none => none
  | some name =>
      if passesFilters f r then some { r with playerCell := some name } else none

/-- Worker for `chunksOf`: `cap` is the remaining capacity of the chunk
accumulating (reversed) in `acc`. -/
def chunksOfGo {α : Type} (n : Nat) : Nat → List α → List α → List (List α)
  | _, acc, [] => bif acc.isEmpty then [] else [acc.reverse]
  | Nat.succ k, acc, x :: xs => chunksOfGo n k (x :: acc) xs
  | 0, acc, x :: xs => acc.reverse :: chunksOfGo n (n - 1) [x] xs

/-- Group a list into windows of `n` (the last one possibly shorter);
`n = 0` is clamped to `1` (pandas rejects `chunksize=0`, and the sources
use 10000/50000). -/
def chunksOf {α : Type} (n : Nat) (l : List α) : List (List α) :=
  chunksOfGo (max 1 n) (max 1 n) [] l

/-- Reading one chunk off the stream: any I/O error inside the window
raises while pandas materializes it, so the whole chunk read fails. -/
def readChunk : List (Except Unit PRow) → Option (List PRow)
  | [] => some []
  | .error _ :: _ => none
  | .ok r :: t => (readChunk t).map (r :: ·)

/-- The chunk loop of `extract_fantasy_data`: clean each chunk and extend
`all_data`; the surrounding `try`/`except` turns any mid-stream read
failure into `return None`, discarding `all_data`. -/
def extractChunks (f : Filters) : List (List (Except Unit PRow)) → Option (List PRow)
  | [] => some []
  | c :: cs =>
      match readChunk c with
      | none => none
      | some rows => (extractChunks f cs).map (fun rest => rows.filterMap (cleanRow f) ++ rest)

/-- `extract_fantasy_data`: stream the file in windows of `chunk_size`
rows and run the chunk loop. -/
def extract_fantasy_data (chunkSize : Nat) (f : Filters) (stream : List (Except Unit PRow)) :
    Option (List PRow) :=
  extractChunks f (chunksOf chunkSize stream)

/-! ### Per-chunk dtype inference

`pd.read_csv(..., chunksize=n)` parses every window independently: each
chunk's columns get their own inferred dtypes, so the values
`to_dict('records')` reports can depend on which rows share a window.
This layer refines the raw-string model above with that mechanism,
modelled from pandas' documented inference: a column is int64 when every
cell is present and parses as an integer, float64 when every non-missing
cell parses as a float (integer columns with missing values land here),
and object — cells kept as raw strings — otherwise.  The key, position
and year cells stay raw: the cleaning pushes the player column through
`astype(str)` and the filter claims exercise textual columns (the raw
model above remains the reference for the cleaning pipeline itself). -/

/-- What the classifier sees of one column: its header name, whether its
sampled dtype is `object`, whether it is a numeric dtype, and the sampled
cell values (`none` is `NaN`). -/
structure ColumnInfo where
  name : String
  dtypeIsObject : Bool
  isNumericDtype : Bool
  samples : List (Option String)
deriving DecidableEq, Repr

/-- Is `pat` a leading slice of `l`? -/
def isPrefixB : List Char → List Char → Bool
  | [], _ => true
  | _ :: _, [] => false
  | a :: as, b :: bs => a = b && isPrefixB as bs

/-- Python's `pat in s` substring containment. -/
def containsSub (pat : List Char) : List Char → Bool
  | [] => isPrefixB pat []
  | l@(_ :: t) => isPrefixB pat l || containsSub pat t

/-- ASCII lowercase of one character (the header names the classifier
sees are ASCII; Python's Unicode-aware `str.lower()` coincides there). -/
def toLowerChar (c : Char) : Char :=
  if 'A' ≤ c ∧ c ≤ 'Z' then Char.ofNat (c.toNat + 32) else c

/-- `header.lower()`. -/
def lowerStr (s : String) : String :=
  ⟨s.data.map toLowerChar⟩

/-- `any(keyword in col_lower for keyword in kws)`. -/
def keywordHit (kws : List String) (colLower : String) : Bool :=
  kws.any (fun k => containsSub k.data colLower.data)

/-- Keyword group for player-name candidates (line 85). -/
def playerKeywords : List String := ["name", "player", "full_name", "player_name"]

/-- Keyword group for position columns (line 96). -/
def positionKeywords : List String := ["position", "pos", "eligible"]

/-- Keyword group for team columns (line 102). -/
def teamKeywords : List String := ["team", "tm", "club"]

/-- Keyword group for stat columns (lines 108–113). -/
def statKeywords : List String :=
  ["fantasy", "points", "pts", "yards", "yd", "yds",
   "touchdown", "td", "reception", "rec", "target", "tgt",
   "rush", "pass", "adp", "rank", "projection", "proj",
   "actual", "season", "week", "game", "snap", "share",
   "ppr", "half", "standard", "score"]

/-- The role a column lands in (appearing in none of the four result
lists is the spec's UNCLASSIFIED). -/
inductive ColumnClass where
  | playerCol
  | positionCol
  | teamCol
  | statCol
  | unclassified
deriving DecidableEq, Repr

/-- The `if`/`elif` chain of `detect_player_columns` for one column: a
player-keyword match additionally requires `object` dtype and a space in
at least one of the first five non-null sample values; a failed inner
check classifies the column nowhere (the `elif` arms are not tried). -/
def classifyColumn (c : ColumnInfo) : ColumnClass :=
  let low := lowerStr c.name
  if keywordHit playerKeywords low then
    if c.dtypeIsObject &&
        ((c.samples.filterMap id).take 5).any (fun v => v.data.contains ' ') then
      .playerCol
    else .unclassified
  else if keywordHit positionKeywords low then .positionCol
  else if keywordHit teamKeywords low then .teamCol
  else if keywordHit statKeywords low then
    if c.isNumericDtype || c.dtypeIsObject then .statCol else .unclassified
  else .unclassified

/-- `detect_player_columns`: the four result lists in column order. -/
def detect_player_columns (cols : List ColumnInfo) :
    List String × List String × List String × List String :=
  ((cols.filter (fun c => classifyColumn c = .playerCol)).map (·.name),
   (cols.filter (fun c => classifyColumn c = .statCol)).map (·.name),
   (cols.filter (fun c => classifyColumn c = .positionCol)).map (·.name),
   (cols.filter (fun c => classifyColumn c = .teamCol)).map (·.name))

/-- The entity-key sample check as the spec words it: a strict majority
of the non-empty sample values contain an internal space.  Stated only to
be compared with the any-of-first-five check the source implements. -/
def specMajoritySpace (samples : List String) : Bool :=
  let ne := samples.filter (fun v => v ≠ "")
  ne.length < 2 * (ne.filter (fun v => (pyStrip v).data.contains ' ')).length

/-! ## `LargeCSVProcessor.analyze_file` (lines 20–57) and `main`
(lines 199–244)

The file is a list of lines, each either a parsed cell list or a parse
failure (`csv.Error`); decoding itself never fails (`errors='ignore'`).
`next(reader)` on an empty file raises `StopIteration`, caught by the
same `except` as parse errors.  The sample loop `for i, row in
enumerate(reader): if i >= 3: break` consumes up to four data rows (the
fourth is read before the break), all inside the same `try`; the
row-count pass has its own `except` that only warns. -/

/-- One physical line of the CSV: parsed cells or a parse failure. -/
abbrev CsvLine := Except Unit (List String)

/-- Did the line parse? -/
def lineOk : CsvLine → Bool
  | .ok _ => true
  | .error _ => false

/-- `analyze_file`: `some headers` when it returns `True` (with
`self.headers` set), `none` when it returns `False`. -/
def analyze_file (file : List CsvLine) : Option (List String) :=
  match file with
  | [] => none
  | first :: rest =>
      match first with
      | .error _ => none
      | .ok headers => if (rest.take 4).all lineOk then some headers else none

/-- `main` lines 213–215: extraction is attempted only when
`analyze_file` returned `True`. -/
def mainProceedsToExtraction (file : List CsvLine) : Bool :=
  (analyze_file file).isSome

/-! ## Dictionary lemmas -/

theorem dictLookup_dictInsert {α : Type} (k ki : String) (v : α) (d : List (String × α)) :
    dictLookup k (dictInsert ki v d) = if ki = k then some v else dictLookup k d := by
  induction d with
  | nil => simp [dictInsert, dictLookup]
  | cons hd tl ih =>
      obtain ⟨k', v'⟩ := hd
      by_cases h1 : k' = ki
      · subst h1
        by_cases h2 : k' = k <;> simp [dictInsert, dictLookup, h2]
      · by_cases h2 : k' = k
        · subst h2
          have hne2 : ¬(ki = k') := fun h => h1 h.symm
          simp [dictInsert, dictLookup, h1, hne2]
        · simp [dictInsert, dictLookup, h1, h2, ih]

theorem keys_dictInsert {α : Type} (a ki : String) (v : α) (d : List (String × α)) :
    a ∈ (dictInsert ki v d).map Prod.fst ↔ a = ki ∨ a ∈ d.map Prod.fst := by
  induction d with
  | nil => simp [dictInsert]
  | cons hd tl ih =>
      obtain ⟨k', v'⟩ := hd
      by_cases h1 : k' = ki
      · subst h1
        simp [dictInsert]
      · simp [dictInsert, h1, ih]
        tauto

theorem nodup_keys_dictInsert {α : Type} (ki : String) (v : α) (d : List (String × α))
    (h : (d.map Prod.fst).Nodup) : ((dictInsert ki v d).map Prod.fst).Nodup := by
  induction d with
  | nil => simp [dictInsert]
  | cons hd tl ih =>
      obtain ⟨k', v'⟩ := hd
      simp only [List.map_cons, List.nodup_cons] at h
      by_cases h1 : k' = ki
      · subst h1
        simpa [dictInsert] using h
      · simp only [dictInsert, if_neg h1, List.map_cons, List.nodup_cons]
        refine ⟨fun hmem => ?_, ih h.2⟩
        rcases (keys_dictInsert k' ki v tl).mp hmem with h2 | h2
        · exact h1 h2
        · exact h.1 h2

theorem isSome_dictInsert {α : Type} (k ki : String) (v : α) (d : List (String × α))
    (h : (dictLookup k d).isSome = true) :
    (dictLookup k (dictInsert ki v d)).isSome = true := by
  rw [dictLookup_dictInsert]
  by_cases h2 : ki = k <;> simp [h2, h]

/-! ## Row-loop lemmas -/

theorem processRow_of_skipped (headers : List String) (sel : Selection) (st : ExtractState)
    (row : Row) (h : rowSkipped sel row = true) :
    processRow headers sel st row = st := by
  simp only [rowSkipped, Bool.or_eq_true, decide_eq_true_eq] at h
  unfold processRow
  rcases h with h | h
  · rw [if_pos h]
  · by_cases hl : row.length ≤ rowMaxIdx sel
    · rw [if_pos hl]
    · rw [if_neg hl]
      simp only [List.getD_eq_getElem?_getD] at h
      simp [h]

theorem processRow_of_contrib (headers : List String) (sel : Selection) (st : ExtractState)
    (row : Row) (h : rowSkipped sel row = false) :
    processRow headers sel st row =
      ⟨dictInsert (pyStrip (row.getD sel.playerCol "")) (extractRecordRow headers sel row) st.table,
        st.processedRows + 1⟩ := by
  simp only [rowSkipped, Bool.or_eq_false_iff, decide_eq_false_iff_not] at h
  unfold processRow
  rw [if_neg h.1]
  have h2 := h.2
  simp only [List.getD_eq_getElem?_getD] at h2
  simp [h2]

theorem foldl_lookup_frozen (headers : List String) (sel : Selection) (k : String)
    (rows : List Row) :
    ∀ st : ExtractState,
      (∀ r ∈ rows, rowSkipped sel r = true ∨ pyStrip (r.getD sel.playerCol "") ≠ k) →
      dictLookup k (rows.foldl (processRow headers sel) st).table = dictLookup k st.table := by
  induction rows with
  | nil => intro st _; rfl
  | cons r rest ih =>
      intro st hall
      have hr := hall r (by simp)
      have hrest : ∀ r' ∈ rest, rowSkipped sel r' = true ∨ pyStrip (r'.getD sel.playerCol "") ≠ k :=
        fun r' hm => hall r' (by simp [hm])
      simp only [List.foldl_cons]
      rw [ih _ hrest]
      by_cases hs : rowSkipped sel r = true
      · rw [processRow_of_skipped _ _ _ _ hs]
      · have hs' : rowSkipped sel r = false := by simpa using hs
        rcases hr with h | h
        · exact absurd h hs
        · rw [processRow_of_contrib _ _ _ _ hs']
          simp only
          rw [dictLookup_dictInsert, if_neg h]

theorem foldl_table_source (headers : List String) (sel : Selection) (rows : List Row) :
    ∀ (st : ExtractState) (k : String) (rec : Record),
      dictLookup k (rows.foldl (processRow headers sel) st).table = some rec →
      dictLookup k st.table = some rec ∨
        ∃ row ∈ rows, rowSkipped sel row = false ∧
          k = pyStrip (row.getD sel.playerCol "") ∧ rec = extractRecordRow headers sel row := by
  induction rows with
  | nil => intro st k rec h; exact Or.inl h
  | cons r rest ih =>
      intro st k rec h
      simp only [List.foldl_cons] at h
      rcases ih _ k rec h with h1 | h1
      · by_cases hs : rowSkipped sel r = true
        · rw [processRow_of_skipped _ _ _ _ hs] at h1; exact Or.inl h1
        · have hs' : rowSkipped sel r = false := by simpa using hs
          rw [processRow_of_contrib _ _ _ _ hs'] at h1
          simp only at h1
          rw [dictLookup_dictInsert] at h1
          by_cases hk : pyStrip (r.getD sel.playerCol "") = k
          · rw [if_pos hk] at h1
            exact Or.inr ⟨r, by simp, hs', hk.symm, (Option.some.inj h1).symm⟩
          · rw [if_neg hk] at h1; exact Or.inl h1
      · obtain ⟨row, hm, hrow⟩ := h1
        exact Or.inr ⟨row, by simp [hm], hrow⟩

theorem foldl_table_nodup (headers : List String) (sel : Selection) (rows : List Row) :
    ∀ st : ExtractState,
      (st.table.map Prod.fst).Nodup →
      ((rows.foldl (processRow headers sel) st).table.map Prod.fst).Nodup := by
  induction rows with
  | nil => intro st h; exact h
  | cons r rest ih =>
      intro st h
      simp only [List.foldl_cons]
      apply ih
      by_cases hs : rowSkipped sel r = true
      · rw [processRow_of_skipped _ _ _ _ hs]; exact h
      · rw [processRow_of_contrib _ _ _ _ (by simpa using hs)]
        exact nodup_keys_dictInsert _ _ _ h

/-! ## Bounds through `rowMaxIdx` -/

theorem foldl_max_le_init (l : List Nat) : ∀ a : Nat, a ≤ l.foldl max a := by
  induction l with
  | nil => intro a; exact le_refl a
  | cons x t ih => intro a; exact le_trans (le_max_left a x) (ih (max a x))

theorem mem_le_foldl_max (l : List Nat) : ∀ (a i : Nat), i ∈ l → i ≤ l.foldl max a := by
  induction l with
  | nil => intro a i h; exact absurd h (List.not_mem_nil i)
  | cons x t ih =>
      intro a i h
      rcases List.mem_cons.mp h with h | h
      · subst h
        exact le_trans (le_max_right a i) (foldl_max_le_init t (max a i))
      · exact ih (max a x) i h

theorem statIdx_lt_of_long (sel : Selection) (row : Row) (h : rowMaxIdx sel < row.length) :
    sel.playerCol < row.length ∧ ∀ i ∈ sel.statCols, i < row.length := by
  constructor
  · exact lt_of_le_of_lt (le_max_left _ _) h
  · intro i hi
    exact lt_of_le_of_lt (le_trans (mem_le_foldl_max _ 0 i hi) (le_max_right _ _)) h

/-! ## Record-build lemmas -/

theorem record_foldl_keeps (headers : List String) (row : Row) (k : String) (l : List Nat) :
    ∀ acc : Record, (dictLookup k acc).isSome = true →
      (dictLookup k (l.foldl (recStep headers row) acc)).isSome = true := by
  induction l with
  | nil => intro acc h; exact h
  | cons i t ih =>
      intro acc h
      simp only [List.foldl_cons]
      apply ih
      unfold recStep
      by_cases hl : i < row.length
      · rw [if_pos hl]; exact isSome_dictInsert _ _ _ _ h
      · rw [if_neg hl]; exact h

theorem record_foldl_mem (headers : List String) (row : Row) (l : List Nat) :
    ∀ (acc : Record) (i : Nat), i ∈ l → i < row.length →
      (dictLookup (headers.getD i "") (l.foldl (recStep headers row) acc)).isSome = true := by
  induction l with
  | nil => intro acc i h; exact absurd h (List.not_mem_nil i)
  | cons j t ih =>
      intro acc i hm hlt
      simp only [List.foldl_cons]
      rcases List.mem_cons.mp hm with h | h
      · subst h
        apply record_foldl_keeps
        unfold recStep
        rw [if_pos hlt, dictLookup_dictInsert, if_pos rfl]
        rfl
      · exact ih _ i h hlt

/-! ## Chunking lemmas -/

theorem chunksOfGo_join {α : Type} (n : Nat) (l : List α) :
    ∀ (cap : Nat) (acc : List α),
      (chunksOfGo n cap acc l).flatten = acc.reverse ++ l := by
  induction l with
  | nil => intro cap acc; cases acc <;> simp [chunksOfGo]
  | cons x xs ih =>
      intro cap acc
      cases cap with
      | zero => simp [chunksOfGo, ih]
      | succ k => simp [chunksOfGo, ih]

theorem chunksOf_join {α : Type} (n : Nat) (l : List α) : (chunksOf n l).flatten = l := by
  simp [chunksOf, chunksOfGo_join]

theorem chunksOfGo_map {α β : Type} (g : α → β) (n : Nat) (l : List α) :
    ∀ (cap : Nat) (acc : List α),
      chunksOfGo n cap (acc.map g) (l.map g) = (chunksOfGo n cap acc l).map (List.map g) := by
  induction l with
  | nil =>
      intro cap acc
      cases acc <;> simp [chunksOfGo]
  | cons x xs ih =>
      intro cap acc
      cases cap with
      | zero =>
          have h1 : (g x :: List.map g []) = List.map g [x] := rfl
          simp only [List.map_cons, chunksOfGo]
          rw [show (g x :: ([] : List β)) = List.map g [x] from rfl, ih]
          simp
      | succ k =>
          simp only [List.map_cons, chunksOfGo]
          rw [show (g x :: acc.map g) = (x :: acc).map g from rfl, ih]

theorem chunksOf_map {α β : Type} (g : α → β) (n : Nat) (l : List α) :
    chunksOf n (l.map g) = (chunksOf n l).map (List.map g) := by
  have h := chunksOfGo_map g (max 1 n) l (max 1 n) []
  simpa [chunksOf] using h

/-! ## Stream lemmas -/

theorem readChunk_map_ok (c : List PRow) : readChunk (c.map Except.ok) = some c := by
  induction c with
  | nil => rfl
  | cons r t ih => simp [readChunk, ih]

theorem readChunk_of_mem_error (c : List (Except Unit PRow)) (h : Except.error () ∈ c) :
    readChunk c = none := by
  induction c with
  | nil => exact absurd h (List.not_mem_nil _)
  | cons x t ih =>
      cases x with
      | error e => rfl
      | ok r =>
          have ht : Except.error () ∈ t := by
            rcases List.mem_cons.mp h with h1 | h1
            · exact absurd h1 (by simp)
            · exact h1
          simp [readChunk, ih ht]

theorem extractChunks_map_ok (f : Filters) (cs : List (List PRow)) :
    extractChunks f (cs.map (List.map Except.ok))
      = some ((cs.map (List.filterMap (cleanRow f))).flatten) := by
  induction cs with
  | nil => rfl
  | cons c t ih => simp [extractChunks, readChunk_map_ok, ih]

theorem extractChunks_of_error (f : Filters) (cs : List (List (Except Unit PRow)))
    (h : ∃ c ∈ cs, Except.error () ∈ c) : extractChunks f cs = none := by
  induction cs with
  | nil => obtain ⟨c, hc, _⟩ := h; exact absurd hc (List.not_mem_nil _)
  | cons c t ih =>
      obtain ⟨c', hc', herr⟩ := h
      rcases List.mem_cons.mp hc' with h1 | h1
      · subst h1
        simp [extractChunks, readChunk_of_mem_error _ herr]
      · unfold extractChunks
        cases hrc : readChunk c with
        | none => rfl
        | some rows => simp [ih ⟨c', h1, herr⟩]

theorem join_map_filterMap {α β : Type} (p : α → Option β) (cs : List (List α)) :
    (cs.map (List.filterMap p)).flatten = cs.flatten.filterMap p := by
  induction cs with
  | nil => rfl
  | cons c t ih => simp only [List.map_cons, List.flatten_cons, List.filterMap_append, ih]

theorem extract_fantasy_data_ok (n : Nat) (f : Filters) (rows : List PRow) :
    extract_fantasy_data n f (rows.map Except.ok) = some (rows.filterMap (cleanRow f)) := by
  unfold extract_fantasy_data
  rw [chunksOf_map, extractChunks_map_ok, join_map_filterMap, chunksOf_join]

/-! ## Typed-chunking lemmas -/

/-- C1: when a contributing row is the last row whose stripped entity key
equals its own, the final `players_data` holds exactly that row's freshly
built record under the key — `players_data[player_name] = player_stats`
replaces an earlier duplicate's record in its entirety — and the table
never holds two records for one key. -/
theorem c1_last_write_wins_per_key (headers : List String) (sel : Selection)
    (pre post : List Row) (r : Row)
    (hkeep : rowSkipped sel r = false)
    (hlast : ∀ r' ∈ post, rowSkipped sel r' = true ∨
      pyStrip (r'.getD sel.playerCol "") ≠ pyStrip (r.getD sel.playerCol "")) :
    dictLookup (pyStrip (r.getD sel.playerCol ""))
        (extract_player_data headers sel (pre ++ r :: post)).table
      = some (extractRecordRow headers sel r)
    ∧ ((extract_player_data headers sel (pre ++ r :: post)).table.map Prod.fst).Nodup := by
  constructor
  · unfold extract_player_data
    rw [List.foldl_append]
    simp only [List.foldl_cons]
    rw [foldl_lookup_frozen headers sel _ post _ hlast]
    rw [processRow_of_contrib _ _ _ _ hkeep]
    simp only
    rw [dictLookup_dictInsert, if_pos rfl]
  · exact foldl_table_nodup headers sel (pre ++ r :: post) ⟨[], 0⟩ (by simp)

/-- C1 witness: a duplicate key `Alice`; the second row's record replaces
the first's entirely. -/
theorem c1_witness :
    dictLookup (pyStrip ((["Alice", "NYG", "12"] : Row).getD 0 ""))
        (extract_player_data ["name", "team", "points"] ⟨0, [1, 2]⟩
          [["Alice", "NYG", "10.5"], ["Alice", "NYG", "12"]]).table
      = some (extractRecordRow ["name", "team", "points"] ⟨0, [1, 2]⟩ ["Alice", "NYG", "12"])
    ∧ ((extract_player_data ["name", "team", "points"] ⟨0, [1, 2]⟩
          [["Alice", "NYG", "10.5"], ["Alice", "NYG", "12"]]).table.map Prod.fst).Nodup :=
  c1_last_write_wins_per_key ["name", "team", "points"] ⟨0, [1, 2]⟩
    [["Alice", "NYG", "10.5"]] [] ["Alice", "NYG", "12"] (by decide) (by simp)

/-- C2 counterexample: the claim's int-then-float chain and the code
disagree on `"1e5"`: the code stores the text `"1e5"` (no `'.'`, so it
only attempts `int()`), while attempting a float parse after the failed
integer parse would store the floating value 100000. -/
theorem c2_counterexample :
    coerceStat "1e5" = Value.textVal "1e5"
    ∧ specCoerce "1e5" = Value.floatVal (100000 : Rat) := by
  constructor
  · decide
  · have h : pyFloatScan "1e5" = some ⟨1, 1, 0, 0, 5⟩ := by decide
    have hi : pyIntParse "1e5" = none := by decide
    simp [specCoerce, hi, pyFloatParse, h, FloatRepr.toRat, ratTimesPow10]
    norm_num

/-- C2 (amended): coercion dispatches on the presence of a `'.'` in the
trimmed cell — a float parse is attempted exactly when the cell contains
`'.'`, an integer parse otherwise — and on parse failure the trimmed text
is stored, so coercion is total.  `"17"` is stored as integer 17,
`"12.5"` as floating 12.5, `"N/A"` as the text `"N/A"`. -/
theorem c2_coercion_dispatch :
    coerceStat "17" = Value.intVal 17
    ∧ coerceStat "12.5" = Value.floatVal (25 / 2 : Rat)
    ∧ coerceStat "N/A" = Value.textVal "N/A"
    ∧ ∀ s : String,
        (∃ n, pyIntParse s = some n ∧ coerceStat s = Value.intVal n
          ∧ s.data.contains '.' = false)
        ∨ (∃ q, pyFloatParse s = some q ∧ coerceStat s = Value.floatVal q
          ∧ s.data.contains '.' = true)
        ∨ coerceStat s = Value.textVal s := by
  refine ⟨by decide, ?_, by decide, ?_⟩
  · have h : pyFloatScan "12.5" = some ⟨1, 12, 5, 1, 0⟩ := by decide
    have hc : ("12.5" : String).data.contains '.' = true := by decide
    simp [coerceStat, hc, pyFloatParse, h, FloatRepr.toRat, ratTimesPow10]
    norm_num
  · intro s
    unfold coerceStat
    by_cases hc : s.data.contains '.' = true
    · rw [if_pos hc]
      cases hq : pyFloatParse s with
      | none => exact Or.inr (Or.inr rfl)
      | some q => exact Or.inr (Or.inl ⟨q, rfl, rfl, hc⟩)
    · rw [if_neg hc]
      cases hq : pyIntParse s with
      | none => exact Or.inr (Or.inr rfl)
      | some n => exact Or.inl ⟨n, rfl, rfl, by simpa using hc⟩

/-- C3 counterexample: a stream whose first row cleans to a record and
which then hits an I/O error returns `None` — no partial table or summary
is carried to the caller, contrary to the claimed `StreamError` salvage. -/
theorem c3_counterexample :
    extract_fantasy_data 50000 ⟨none, none⟩
        [Except.ok ⟨some "Alice", none, none, [("points", some "12")]⟩, Except.error ()] = none
    ∧ cleanRow ⟨none, none⟩ ⟨some "Alice", none, none, [("points", some "12")]⟩
        = some ⟨some "Alice", none, none, [("points", some "12")]⟩ := by
  decide

/-- C3 (amended): for every run in which an I/O error occurs mid-stream,
`extract_fantasy_data` returns `None`: the run aborts and the partially
built data is discarded, not returned. -/
theorem c3_error_discards_partial (n : Nat) (f : Filters)
    (pre post : List (Except Unit PRow)) (_hn : 0 < n) :
    extract_fantasy_data n f (pre ++ Except.error () :: post) = none := by
  unfold extract_fantasy_data
  apply extractChunks_of_error
  have hmem : Except.error () ∈ pre ++ Except.error () :: post := by simp
  have hj : (chunksOf n (pre ++ Except.error () :: post)).flatten
      = pre ++ Except.error () :: post := chunksOf_join n _
  rw [← hj] at hmem
  exact List.mem_flatten.mp hmem

/-- C3 witness: one good row before the error; the run still returns
`None`. -/
theorem c3_error_discards_partial_witness :
    extract_fantasy_data 50000 ⟨none, none⟩
        ([Except.ok ⟨some "Bob", none, none, []⟩] ++ Except.error () :: []) = none :=
  c3_error_discards_partial 50000 ⟨none, none⟩
    [Except.ok ⟨some "Bob", none, none, []⟩] [] (by decide)

/-- C5: a row with fewer fields than needed to reach the entity-key
column or the furthest projected column contributes nothing — the final
state is as if the row were absent, so the run continues — and the
(spec-modelled) `row_count_skipped` counter increments for it. -/
theorem c5_short_row_skipped (headers : List String) (sel : Selection)
    (pre post : List Row) (row : Row)
    (hshort : row.length ≤ rowMaxIdx sel) :
    extract_player_data headers sel (pre ++ row :: post)
        = extract_player_data headers sel (pre ++ post)
    ∧ row_count_skipped sel (pre ++ row :: post) = row_count_skipped sel (pre ++ post) + 1 := by
  have hskip : rowSkipped sel row = true := by simp [rowSkipped, hshort]
  constructor
  · unfold extract_player_data
    rw [List.foldl_append, List.foldl_append]
    simp only [List.foldl_cons]
    rw [processRow_of_skipped _ _ _ _ hskip]
  · simp only [row_count_skipped, List.filter_append, List.filter_cons, hskip, if_true,
      List.length_append, List.length_cons]
    omega

/-- C5 witness: a one-cell row under a selection whose furthest column is
index 1. -/
theorem c5_witness :
    extract_player_data ["name", "pts"] ⟨0, [1]⟩ ([] ++ ["x"] :: [["Al B", "7"]])
        = extract_player_data ["name", "pts"] ⟨0, [1]⟩ ([] ++ [["Al B", "7"]])
    ∧ row_count_skipped ⟨0, [1]⟩ ([] ++ ["x"] :: [["Al B", "7"]])
        = row_count_skipped ⟨0, [1]⟩ ([] ++ [["Al B", "7"]]) + 1 :=
  c5_short_row_skipped ["name", "pts"] ⟨0, [1]⟩ [] [["Al B", "7"]] ["x"] (by decide)

/-- C6: a row whose entity-key cell strips to the empty string
contributes nothing and the (spec-modelled) skip counter counts it; and
every key present in the final table is the stripped, non-empty key-cell
value of some contributing row. -/
theorem c6_empty_key_discarded (headers : List String) (sel : Selection)
    (pre post : List Row) (row : Row) (rows : List Row)
    (hempty : pyStrip (row.getD sel.playerCol "") = "") :
    extract_player_data headers sel (pre ++ row :: post)
        = extract_player_data headers sel (pre ++ post)
    ∧ row_count_skipped sel (pre ++ row :: post) = row_count_skipped sel (pre ++ post) + 1
    ∧ ∀ (k : String) (rec : Record),
        dictLookup k (extract_player_data headers sel rows).table = some rec →
        k ≠ "" ∧ ∃ row' ∈ rows, rowSkipped sel row' = false
          ∧ k = pyStrip (row'.getD sel.playerCol "") := by
  have hskip : rowSkipped sel row = true := by
    have hempty' := hempty
    simp only [List.getD_eq_getElem?_getD] at hempty'
    simp [rowSkipped, hempty']
  refine ⟨?_, ?_, ?_⟩
  · unfold extract_player_data
    rw [List.foldl_append, List.foldl_append]
    simp only [List.foldl_cons]
    rw [processRow_of_skipped _ _ _ _ hskip]
  · simp only [row_count_skipped, List.filter_append, List.filter_cons, hskip, if_true,
      List.length_append, List.length_cons]
    omega
  · intro k rec hmem
    rcases foldl_table_source headers sel rows ⟨[], 0⟩ k rec hmem with h | h
    · exact absurd h (by simp [dictLookup])
    · obtain ⟨row', hm, hns, hk, _⟩ := h
      refine ⟨?_, row', hm, hns, hk⟩
      have hns' := hns
      simp only [rowSkipped, Bool.or_eq_false_iff, decide_eq_false_iff_not] at hns'
      rw [hk]
      exact hns'.2

/-- C6 witness: a whitespace-only key cell is discarded and counted. -/
theorem c6_witness :
    extract_player_data ["name", "pts"] ⟨0, [1]⟩ ([] ++ ["  ", "5"] :: [["Al B", "7"]])
        = extract_player_data ["name", "pts"] ⟨0, [1]⟩ ([] ++ [["Al B", "7"]])
    ∧ row_count_skipped ⟨0, [1]⟩ ([] ++ ["  ", "5"] :: [["Al B", "7"]])
        = row_count_skipped ⟨0, [1]⟩ ([] ++ [["Al B", "7"]]) + 1
    ∧ ∀ (k : String) (rec : Record),
        dictLookup k (extract_player_data ["name", "pts"] ⟨0, [1]⟩ [["Al B", "7"]]).table
          = some rec →
        k ≠ "" ∧ ∃ row' ∈ [(["Al B", "7"] : Row)], rowSkipped ⟨0, [1]⟩ row' = false
          ∧ k = pyStrip (row'.getD 0 "") :=
  c6_empty_key_discarded ["name", "pts"] ⟨0, [1]⟩ [] [["Al B", "7"]] ["  ", "5"]
    [["Al B", "7"]] (by decide)

/-- C8 counterexample: five samples of which only one contains a space:
the source keeps the entity-key candidacy (its check is `any`), while the
claimed majority check fails and demands demotion. -/
theorem c8_counterexample :
    classifyColumn ⟨"player_name", true, false,
        [some "A B", some "x", some "y", some "z", some "w"]⟩ = ColumnClass.playerCol
    ∧ specMajoritySpace ["A B", "x", "y", "z", "w"] = false := by
  decide

/-- C8 (amended): a column whose lower-cased name matches a player
keyword keeps the entity-key candidacy iff its dtype is `object` and at
least one of the first five non-null sample values contains a space;
otherwise it is classified nowhere (UNCLASSIFIED, never another role). -/
theorem c8_any_space_check (c : ColumnInfo)
    (hmatch : keywordHit playerKeywords (lowerStr c.name) = true) :
    (classifyColumn c = ColumnClass.playerCol ↔
      c.dtypeIsObject = true ∧
        ((c.samples.filterMap id).take 5).any (fun v => v.data.contains ' ') = true)
    ∧ (classifyColumn c = ColumnClass.playerCol ∨ classifyColumn c = ColumnClass.unclassified) := by
  unfold classifyColumn
  simp only [hmatch, if_true]
  by_cases hobj : (c.dtypeIsObject
      && ((c.samples.filterMap id).take 5).any (fun v => v.data.contains ' ')) = true
  · rw [if_pos hobj]
    exact ⟨⟨fun _ => (Bool.and_eq_true _ _).mp hobj, fun _ => rfl⟩, Or.inl rfl⟩
  · rw [if_neg hobj]
    exact ⟨⟨fun h => absurd h (by simp), fun h => absurd ((Bool.and_eq_true _ _).mpr h) hobj⟩,
      Or.inr rfl⟩

/-- C8 witness: a single spaced sample keeps the candidacy. -/
theorem c8_witness :
    (classifyColumn ⟨"player_name", true, false, [some "A B"]⟩ = ColumnClass.playerCol ↔
      (⟨"player_name", true, false, [some "A B"]⟩ : ColumnInfo).dtypeIsObject = true ∧
        (((⟨"player_name", true, false, [some "A B"]⟩ : ColumnInfo).samples.filterMap id).take 5).any
          (fun v => v.data.contains ' ') = true)
    ∧ (classifyColumn ⟨"player_name", true, false, [some "A B"]⟩ = ColumnClass.playerCol
        ∨ classifyColumn ⟨"player_name", true, false, [some "A B"]⟩ = ColumnClass.unclassified) :=
  c8_any_space_check ⟨"player_name", true, false, [some "A B"]⟩ (by decide)

/-- C9 counterexample: a file with a perfectly parsable header but a
parse failure in its first sampled data row: `analyze_file` fails
although the header is valid. -/
theorem c9_counterexample :
    analyze_file [Except.ok ["a", "b"], Except.error ()] = none
    ∧ lineOk (Except.ok ["a", "b"]) = true := by
  decide

/-- C9 (amended): probing fails for an empty file and for an unparsable
header; for a file whose header parses and whose first four sampled data
rows also parse, probing succeeds and returns the header's columns; and
when probing fails `main` attempts no extraction. -/
theorem c9_schema_probe (headers : List String) (rest : List CsvLine)
    (hsample : (rest.take 4).all lineOk = true) :
    analyze_file [] = none
    ∧ (∀ rest' : List CsvLine, analyze_file (Except.error () :: rest') = none)
    ∧ analyze_file (Except.ok headers :: rest) = some headers
    ∧ (∀ file : List CsvLine, analyze_file file = none →
        mainProceedsToExtraction file = false) := by
  refine ⟨rfl, fun rest' => rfl, ?_, fun file h => ?_⟩
  · simp [analyze_file, hsample]
  · simp [mainProceedsToExtraction, h]

/-- C9 witness: a two-line file with parsable header and one data row. -/
theorem c9_witness :
    analyze_file [] = none
    ∧ (∀ rest' : List CsvLine, analyze_file (Except.error () :: rest') = none)
    ∧ analyze_file (Except.ok ["a"] :: [Except.ok ["1"]]) = some ["a"]
    ∧ (∀ file : List CsvLine, analyze_file file = none →
        mainProceedsToExtraction file = false) :=
  c9_schema_probe ["a"] [Except.ok ["1"]] (by decide)

/-- C10: every record stored by `extract_player_data` contains the
`'name'` key and one entry per selected stat column: the row-length guard
rejects short rows before any cell is read, so the per-cell bounds check
always passes for processed rows (the in-bounds hypothesis reflects that
Python would raise `IndexError` on `self.headers[stat_idx]` otherwise). -/
theorem c10_complete_records (headers : List String) (sel : Selection) (rows : List Row)
    (k : String) (rec : Record)
    (_hwf : ∀ i ∈ sel.statCols, i < headers.length)
    (hmem : dictLookup k (extract_player_data headers sel rows).table = some rec) :
    (dictLookup "name" rec).isSome = true
    ∧ ∀ i ∈ sel.statCols, (dictLookup (headers.getD i "") rec).isSome = true := by
  rcases foldl_table_source headers sel rows ⟨[], 0⟩ k rec hmem with h | h
  · exact absurd h (by simp [dictLookup])
  · obtain ⟨row, hm, hns, hk, hrec⟩ := h
    have hns' := hns
    simp only [rowSkipped, Bool.or_eq_false_iff, decide_eq_false_iff_not] at hns'
    have hlen : rowMaxIdx sel < row.length := by omega
    have hbounds := statIdx_lt_of_long sel row hlen
    subst hrec
    constructor
    · unfold extractRecordRow
      apply record_foldl_keeps
      simp [dictLookup]
    · intro i hi
      unfold extractRecordRow
      exact record_foldl_mem headers row sel.statCols _ i hi (hbounds.2 i hi)

/-- C10 witness: a processed row yields a record with `name`, `team` and
`points` entries. -/
theorem c10_witness :
    (dictLookup "name"
        (extractRecordRow ["name", "team", "points"] ⟨0, [1, 2]⟩ ["Alice", "NYG", "12"])).isSome
      = true
    ∧ ∀ i ∈ (⟨0, [1, 2]⟩ : Selection).statCols,
        (dictLookup ((["name", "team", "points"] : List String).getD i "")
          (extractRecordRow ["name", "team", "points"] ⟨0, [1, 2]⟩ ["Alice", "NYG", "12"])).isSome
        = true :=
  c10_complete_records ["name", "team", "points"] ⟨0, [1, 2]⟩ [["Alice", "NYG", "12"]]
    (pyStrip ((["Alice", "NYG", "12"] : Row).getD 0 ""))
    (extractRecordRow ["name", "team", "points"] ⟨0, [1, 2]⟩ ["Alice", "NYG", "12"])
    (by decide) (by decide)

end TopDog
